import Mathlib

/-!
Verification of the Zillow scraper repository (scraper.py, parser.py):
a shallow embedding of the JSON data model, the parser functions of
`ZillowParser` and the pagination loop of `NimbleScraper`, with theorems
settling the specification claims.
-/

/-- Python/JSON values as produced by `json.loads`.  Numbers are modelled
as integers (the fields the claims touch are integer-valued); objects are
association lists with unique keys, in insertion order. -/
inductive JSON where
  | null : JSON
  | bool : Bool → JSON
  | num : Int → JSON
  | str : String → JSON
  | arr : List JSON → JSON
  | obj : List (String × JSON) → JSON
deriving Repr

/-- Python truthiness of a JSON value (`bool(x)`). -/
def JSON.truthy : JSON → Bool
  | .null => false
  | .bool b => b
  | .num n => n != 0
  | .str s => !s.isEmpty
  | .arr xs => !xs.isEmpty
  | .obj kvs => !kvs.isEmpty

def JSON.isObj : JSON → Bool
  | .obj _ => true
  | _ => false

def JSON.isArr : JSON → Bool
  | .arr _ => true
  | _ => false

def JSON.isStr : JSON → Bool
  | .str _ => true
  | _ => false

/-- First-occurrence lookup in an association list (Python dict lookup;
keys are unique in a dict, so first occurrence is the value). -/
def dictLookup (kvs : List (String × JSON)) (k : String) : Option JSON :=
  match kvs with
  | [] => none
  | (k', v) :: rest => if k' = k then some v else dictLookup rest k

/-- Total `d.get(k, default)` on an association list. -/
def dictGetD (kvs : List (String × JSON)) (k : String) (d : JSON) : JSON :=
  (dictLookup kvs k).getD d

/-- Python `x.get(k, d)`: succeeds on a dict, raises `AttributeError`
(modelled as `.error ()`) on any non-dict value. -/
def JSON.objGet : JSON → String → JSON → Except Unit JSON
  | .obj kvs, k, d => .ok (dictGetD kvs k d)
  | _, _, _ => .error ()

/-- Total variant of `get(k, d)` used to state theorems: a non-dict
carrier yields the default. -/
def dGetD (j : JSON) (k : String) (d : JSON) : JSON :=
  match j with
  | .obj kvs => dictGetD kvs k d
  | _ => d

/-- `'k' in d` for a dict (only used by the code after an `isinstance`
check, so the non-dict case is irrelevant and returns `false`). -/
def JSON.hasKey : JSON → String → Bool
  | .obj kvs, k => (dictLookup kvs k).isSome
  | _, _ => false

/-! ## parser.py: `ZillowParser.extract_search_results` (lines 80-137) -/

/-- The chain `data.get(k1, {}).get(k2, {})...` from the source: raises as
soon as an intermediate value is not a dict, otherwise follows the keys
with `{}` as the default for a missing key. -/
def followPath (j : JSON) : List String → Except Unit JSON
  | [] => .ok j
  | k :: ks => do
    let v ← j.objGet k (.obj [])
    followPath v ks

/-- Primary lookup path of `extract_search_results`. -/
def primaryPath : List String :=
  ["props", "pageProps", "searchPageState", "cat1", "searchResults"]

/-- The hardcoded `alternative_paths` list of `_try_alternative_paths`. -/
def alternativePaths : List (List String) :=
  [["props", "pageProps", "searchPageState", "searchResults"],
   ["props", "pageProps", "componentProps", "searchResults"],
   ["props", "initialReduxState", "searchPageState", "cat1", "searchResults"]]

/-- The acceptance test `data and isinstance(data, dict) and 'listResults' in data`
applied to a candidate value of an alternative path. -/
def altAccept (d : JSON) : Bool :=
  d.truthy && d.isObj && d.hasKey "listResults"

/-- `ZillowParser._try_alternative_paths`: walk each hardcoded path; a raise
during the walk is swallowed by the inner `except: continue`; return the
first value passing `altAccept`, else `None`. -/
def tryAlternativePathsFn (j : JSON) : List (List String) → Option JSON
  | [] => none
  | p :: ps =>
    match followPath j p with
    | .error _ => tryAlternativePathsFn j ps
    | .ok d => if altAccept d then some d else tryAlternativePathsFn j ps

/-- `ZillowParser.extract_search_results`: follow the primary path (a raise
is caught by the outer `except`, which returns `None` without trying the
alternatives); if the value is truthy return it, otherwise return whatever
`_try_alternative_paths` gives. -/
def extract_search_results (j : JSON) : Option JSON :=
  match followPath j primaryPath with
  | .error _ => none
  | .ok sr => if sr.truthy then some sr else tryAlternativePathsFn j alternativePaths

/-- Total `get(k, {})` as the spec reads it: a missing key or a non-dict
carrier yields `{}`. -/
def specGet (j : JSON) (k : String) : JSON :=
  match j with
  | .obj kvs => dictGetD kvs k (.obj [])
  | _ => .obj []

/-- Total path value, spec reading. -/
def specPathValue (j : JSON) (p : List String) : JSON := p.foldl specGet j

/-- Modelled from the spec claim: first alternative path whose value is a
non-empty dict containing the key listResults. -/
def specFirstAlt (j : JSON) : List (List String) → Option JSON
  | [] => none
  | p :: ps =>
    let d := specPathValue j p
    if altAccept d then some d else specFirstAlt j ps

/-- Modelled from the spec claim C2: return the primary-path value when it
is non-empty, else the first matching alternative path value, else `None`. -/
def extract_search_results_spec (j : JSON) : Option JSON :=
  let v := specPathValue j primaryPath
  if v.truthy then some v else specFirstAlt j alternativePaths

/-! ## parser.py: `ZillowParser.parse_property` (lines 139-233) -/

mutual
/-- Python `repr()` of a JSON value (used inside `str()` of containers).
String escaping inside `repr` of a string is not modelled beyond quoting;
no claim depends on it. -/
def pyRepr : JSON → String
  | .null => "None"
  | .bool true => "True"
  | .bool false => "False"
  | .num n => toString n
  | .str s => "\x27" ++ s ++ "\x27"
  | .arr xs => "[" ++ pyReprSeq xs ++ "]"
  | .obj kvs => "\x7b" ++ pyReprPairs kvs ++ "\x7d"

def pyReprSeq : List JSON → String
  | [] => ""
  | [x] => pyRepr x
  | x :: y :: xs => pyRepr x ++ ", " ++ pyReprSeq (y :: xs)

def pyReprPairs : List (String × JSON) → String
  | [] => ""
  | [(k, v)] => "\x27" ++ k ++ "\x27: " ++ pyRepr v
  | (k, v) :: kv :: kvs =>
    "\x27" ++ k ++ "\x27: " ++ pyRepr v ++ ", " ++ pyReprPairs (kv :: kvs)
end

/-- Python `str()` of a JSON value, as interpolated by an f-string. -/
def pyStr : JSON → String
  | .str s => s
  | v => pyRepr v

/-- The 25 values of the `property_info` dict built by `parse_property`,
in source order. -/
structure PropInfo where
  zpid : JSON
  address : JSON
  city : JSON
  state : JSON
  zipcode : JSON
  full_address : JSON
  price : JSON
  price_numeric : JSON
  bedrooms : JSON
  bathrooms : JSON
  area_sqft : JSON
  property_type : JSON
  listing_type : JSON
  listing_status : JSON
  detail_url : JSON
  image_url : JSON
  lot_area : JSON
  lot_area_unit : JSON
  year_built : JSON
  days_on_zillow : JSON
  latitude : JSON
  longitude : JSON
  broker_name : JSON
  has_image : JSON
  is_featured : JSON

/-- The `property_info` dict literal of parser.py lines 201-227. -/
def buildRecord (p : PropInfo) : List (String × JSON) :=
  [("zpid", p.zpid),
   ("address", p.address),
   ("city", p.city),
   ("state", p.state),
   ("zipcode", p.zipcode),
   ("full_address", p.full_address),
   ("price", p.price),
   ("price_numeric", p.price_numeric),
   ("bedrooms", p.bedrooms),
   ("bathrooms", p.bathrooms),
   ("area_sqft", p.area_sqft),
   ("property_type", p.property_type),
   ("listing_type", p.listing_type),
   ("listing_status", p.listing_status),
   ("detail_url", p.detail_url),
   ("image_url", p.image_url),
   ("lot_area", p.lot_area),
   ("lot_area_unit", p.lot_area_unit),
   ("year_built", p.year_built),
   ("days_on_zillow", p.days_on_zillow),
   ("latitude", p.latitude),
   ("longitude", p.longitude),
   ("broker_name", p.broker_name),
   ("has_image", p.has_image),
   ("is_featured", p.is_featured)]

/-- The fixed key set of every record `parse_property` returns. -/
def knownKeys : List String :=
  ["zpid", "address", "city", "state", "zipcode", "full_address", "price",
   "price_numeric", "bedrooms", "bathrooms", "area_sqft", "property_type",
   "listing_type", "listing_status", "detail_url", "image_url", "lot_area",
   "lot_area_unit", "year_built", "days_on_zillow", "latitude", "longitude",
   "broker_name", "has_image", "is_featured"]

/-- The `detail_url` fixup of parser.py lines 176-178: prefix the Zillow
host when the value is truthy and does not start with http; `startswith`
raises on a truthy non-string. -/
def fixDetailUrl (d : JSON) : Except Unit JSON :=
  if d.truthy then
    match d with
    | .str s =>
      .ok (if s.startsWith "http" then .str s else .str ("https://www.zillow.com" ++ s))
    | _ => .error ()
  else .ok d

/-- The body of the `try` block of `parse_property` (lines 149-229): each
`.get` raises on a non-dict carrier; a falsy `zpid` short-circuits to
`None`; otherwise the 25 fields are computed in source order. -/
def extractFields (prop_data : JSON) : Except Unit (Option PropInfo) := do
  let zpid ← prop_data.objGet "zpid" .null
  if !zpid.truthy then return none
  let price ← prop_data.objGet "price" .null
  let price_str ← prop_data.objGet "unformattedPrice" (.num 0)
  let address ← prop_data.objGet "addressStreet" (.str "")
  let city ← prop_data.objGet "addressCity" (.str "")
  let state ← prop_data.objGet "addressState" (.str "")
  let zipcode ← prop_data.objGet "addressZipcode" (.str "")
  let bedrooms ← prop_data.objGet "beds" .null
  let bathrooms ← prop_data.objGet "baths" .null
  let area ← prop_data.objGet "area" .null
  let hdpData ← prop_data.objGet "hdpData" (.obj [])
  let homeInfo ← hdpData.objGet "homeInfo" (.obj [])
  let property_type ← homeInfo.objGet "homeType" (.str "")
  let listing_type ← prop_data.objGet "statusType" (.str "")
  let listing_status ← prop_data.objGet "statusText" (.str "")
  let detail_url0 ← prop_data.objGet "detailUrl" (.str "")
  let detail_url ← fixDetailUrl detail_url0
  let img_src ← prop_data.objGet "imgSrc" (.str "")
  let lot_area ← prop_data.objGet "lotAreaValue" .null
  let lot_area_unit ← prop_data.objGet "lotAreaUnit" (.str "")
  let hdpData2 ← prop_data.objGet "hdpData" (.obj [])
  let homeInfo2 ← hdpData2.objGet "homeInfo" (.obj [])
  let year_built ← homeInfo2.objGet "yearBuilt" .null
  let variableData ← prop_data.objGet "variableData" (.obj [])
  let days_on_zillow ← variableData.objGet "text" (.str "")
  let has_image ← prop_data.objGet "hasImage" (.bool false)
  let is_featured ← prop_data.objGet "isFeatured" (.bool false)
  let latLong ← prop_data.objGet "latLong" (.obj [])
  let latitude ← latLong.objGet "latitude" .null
  let longitude ← latLong.objGet "longitude" .null
  let broker_name ← prop_data.objGet "brokerName" (.str "")
  return some
    { zpid := zpid
      address := address
      city := city
      state := state
      zipcode := zipcode
      full_address := .str (pyStr address ++ ", " ++ pyStr city ++ ", " ++
        pyStr state ++ " " ++ pyStr zipcode)
      price := price
      price_numeric := price_str
      bedrooms := bedrooms
      bathrooms := bathrooms
      area_sqft := area
      property_type := property_type
      listing_type := listing_type
      listing_status := listing_status
      detail_url := detail_url
      image_url := img_src
      lot_area := lot_area
      lot_area_unit := lot_area_unit
      year_built := year_built
      days_on_zillow := days_on_zillow
      latitude := latitude
      longitude := longitude
      broker_name := broker_name
      has_image := has_image
      is_featured := is_featured }

/-- The `except` handler of `parse_property` (lines 231-233): it prints
`prop_data.get('zpid', 'unknown')` — which itself raises `AttributeError`
when `prop_data` is not a dict — then returns `None`. -/
def parsePropertyHandler : JSON → Except Unit (Option (List (String × JSON)))
  | .obj _ => .ok none
  | _ => .error ()

/-- `ZillowParser.parse_property`: run the `try` body; an exception falls
through to the handler. -/
def parse_property (prop_data : JSON) : Except Unit (Option (List (String × JSON))) :=
  match extractFields prop_data with
  | .ok (some f) => .ok (some (buildRecord f))
  | .ok none => .ok none
  | .error _ => parsePropertyHandler prop_data

/-! ## parser.py: `ZillowParser.parse_all_properties` (lines 235-278) and
`get_pagination_info` (lines 280-325).  `extract_json_data` reads the
embedded `__NEXT_DATA__` script tag with BeautifulSoup and returns a JSON
dict or `None`; HTML parsing is outside the embedding, so its result is
the input of these functions. -/

/-- The listing selection of `parse_all_properties` lines 254-261:
`listResults`, falling back to `results` or-chained with `mapResults`. -/
def selectListResults (sr : JSON) : Except Unit JSON := do
  let lr ← sr.objGet "listResults" (.arr [])
  if lr.truthy then return lr
  let r1 ← sr.objGet "results" (.arr [])
  if r1.truthy then return r1
  sr.objGet "mapResults" (.arr [])

/-- Modelled from the spec claim C6: the first non-empty list among the
candidate values, and the empty list when there is none. -/
def firstNonemptyArr : List JSON → JSON
  | [] => .arr []
  | x :: xs =>
    match x with
    | .arr (y :: ys) => .arr (y :: ys)
    | _ => firstNonemptyArr xs

/-- Python `enumerate` over the selected listing value: a list yields its
elements, a string its characters, a dict its keys; `None`, booleans and
numbers raise `TypeError`. -/
def iterListResults : JSON → Except Unit (List JSON)
  | .arr xs => .ok xs
  | .str s => .ok (s.toList.map fun c => .str (String.singleton c))
  | .obj kvs => .ok (kvs.map fun kv => .str kv.1)
  | _ => .error ()

/-- The parsing loop of `parse_all_properties` lines 266-273: run
`parse_property` on each element in order, keep the non-`None` results,
propagate an uncaught exception. -/
def parsePropsLoop : List JSON → Except Unit (List (List (String × JSON)))
  | [] => .ok []
  | x :: xs => do
    let r ← parse_property x
    let rest ← parsePropsLoop xs
    match r with
    | some info => .ok (info :: rest)
    | none => .ok rest

/-- `ZillowParser.parse_all_properties`, taking the `extract_json_data`
result as input (`none` = extraction failed). -/
def parse_all_properties (jd? : Option JSON) : Except Unit (List (List (String × JSON))) :=
  match jd? with
  | none => .ok []
  | some jd =>
    if !jd.truthy then .ok []
    else
      match extract_search_results jd with
      | none => .ok []
      | some sr =>
        if !sr.truthy then .ok []
        else do
          let lr ← selectListResults sr
          let items ← iterListResults lr
          parsePropsLoop items

/-- Python `int` arithmetic carrier: ints are ints, bools coerce, anything
else raises `TypeError` when added to an int. -/
def toArithInt : JSON → Except Unit Int
  | .num n => .ok n
  | .bool b => .ok (if b then 1 else 0)
  | _ => .error ()

/-- Lines 297-302: `totalResultCount or totalResults or resultCount or 0`. -/
def totalResultsOf (sr : JSON) : Except Unit JSON := do
  let a ← sr.objGet "totalResultCount" .null
  if a.truthy then return a
  let b ← sr.objGet "totalResults" .null
  if b.truthy then return b
  let c ← sr.objGet "resultCount" .null
  if c.truthy then return c
  return .num 0

/-- Lines 309-313: `searchList.pagination or pagination or {}`. -/
def paginationOf (sr : JSON) : Except Unit JSON := do
  let searchList ← sr.objGet "searchList" (.obj [])
  let p1 ← searchList.objGet "pagination" (.obj [])
  if p1.truthy then return p1
  let p2 ← sr.objGet "pagination" (.obj [])
  if p2.truthy then return p2
  return .obj []

/-- `ZillowParser.get_pagination_info`, taking the `extract_json_data`
result as input.  Any exception inside the `try` is caught and yields the
empty dict.  `//` is Python floor division, `Int.fdiv`. -/
def get_pagination_info (jd? : Option JSON) : List (String × JSON) :=
  match jd? with
  | none => []
  | some jd =>
    if !jd.truthy then []
    else
      match extract_search_results jd with
      | none => []
      | some sr =>
        if !sr.truthy then []
        else
          match (do
            let tr ← totalResultsOf sr
            let n ← toArithInt tr
            let totalPages := Int.fdiv (n + 20 - 1) 20
            let pg ← paginationOf sr
            let currentPage ← pg.objGet "currentPage" (.num 1)
            return [("current_page", currentPage),
                    ("total_pages", JSON.num totalPages),
                    ("total_results", tr)] : Except Unit (List (String × JSON))) with
          | .ok d => d
          | .error _ => []

/-! ## scraper.py: `NimbleScraper.fetch_page` and `fetch_all_pages`
(lines 21-137).  The network and the BeautifulSoup next-link check are
the environment of the loop: `outcome p` is the result of the single HTTP
POST issued for page `p`, and `hasEnabledNextLink h` abstracts
`soup.find('a', rel='next')` existing with `aria-disabled` ≠ 'true'. -/

/-- Outcome of the HTTP POST of `fetch_page`: a decoded JSON dict body, an
HTTP error status (`raise_for_status` fires), or a request exception. -/
inductive HttpOutcome where
  | ok : List (String × JSON) → HttpOutcome
  | httpError : HttpOutcome
  | requestError : HttpOutcome

/-- `NimbleScraper.fetch_page`: return the decoded body, or `None` on
`HTTPError` / `RequestException` (lines 40-69). -/
def fetch_page : HttpOutcome → Option (List (String × JSON))
  | .ok d => some d
  | .httpError => none
  | .requestError => none

/-- The environment of a `fetch_all_pages` run. -/
structure ScrapeEnv where
  /-- Network outcome of the single fetch issued for page `p`.
  (`fetch_page_with_url_state`, used for pages ≥ 2, performs exactly one
  `fetch_page` call in both of its branches; the claims never inspect the
  rewritten URL, so the URL rewriting is not modelled.) -/
  outcome : Nat → HttpOutcome
  /-- BeautifulSoup check of lines 124-127 on the extracted HTML value. -/
  hasEnabledNextLink : JSON → Bool

/-- Lines 112-117: `html_content or rendered_html or browser_html or html`
on the page dict (`.get` with default `None`). -/
def htmlOf (d : List (String × JSON)) : JSON :=
  let g := fun k => dictGetD d k .null
  if (g "html_content").truthy then g "html_content"
  else if (g "rendered_html").truthy then g "rendered_html"
  else if (g "browser_html").truthy then g "browser_html"
  else g "html"

/-- One page record appended to `all_pages` (lines 105-109). -/
structure PageRec where
  page_number : Nat
  url : String
  data : List (String × JSON)

/-- The body of the `for page_num in range(1, max_pages + 1)` loop of
`fetch_all_pages`, returning the collected page records and the trace of
page numbers for which a fetch was issued (one trace entry per
`fetch_page` call).  `fuel` is the number of remaining loop iterations. -/
def fetchPagesAux (env : ScrapeEnv) (base_url : String) :
    Nat → Nat → List PageRec × List Nat
  | _, 0 => ([], [])
  | p, fuel + 1 =>
    match fetch_page (env.outcome p) with
    | none => ([], [p])
    | some d =>
      if d.isEmpty then ([], [p])
      else
        let entry : PageRec := ⟨p, base_url, d⟩
        let html := htmlOf d
        if !html.truthy then ([entry], [p])
        else if !env.hasEnabledNextLink html then ([entry], [p])
        else
          let rest := fetchPagesAux env base_url (p + 1) fuel
          (entry :: rest.1, p :: rest.2)

/-- `NimbleScraper.fetch_all_pages`: loop from page 1 for at most
`max_pages` iterations. -/
def fetch_all_pages (env : ScrapeEnv) (base_url : String) (max_pages : Nat) :
    List PageRec × List Nat :=
  fetchPagesAux env base_url 1 max_pages

/-- Parse status of the `searchQueryState` query parameter of the base
URL, read by `fetch_page_with_url_state` for every page ≥ 2 (scraper.py
lines 154-164): the key may be absent from the query string (the code
falls back to fetching `base_url` itself, line 195); its value may be
malformed — `json.loads(state_json)` raises `JSONDecodeError` on invalid
JSON, and `state['pagination'] = ...` raises `TypeError` when the parsed
value is a non-dict such as a list or string — or it parses to a dict and
the rewritten URL is fetched.  URL-string decomposition itself (urlparse,
parse_qs, unquote) is deterministic string processing that never raises,
abstracted to this outcome. -/
inductive SearchQueryState where
  | absent : SearchQueryState
  | malformed : SearchQueryState
  | valid : List (String × JSON) → SearchQueryState

/-- A base URL together with the parse status of its `searchQueryState`
query parameter. -/
structure BaseUrl where
  url : String
  queryState : SearchQueryState

/-- `NimbleScraper.fetch_page_with_url_state` (lines 139-195): on a
malformed `searchQueryState` it raises before any network request; in the
absent and valid cases it issues exactly one `fetch_page` call (lines 192
and 195). -/
def fetch_page_with_url_state (env : ScrapeEnv) (b : BaseUrl) (p : Nat) :
    Except Unit (Option (List (String × JSON))) :=
  match b.queryState with
  | .malformed => .error ()
  | _ => .ok (fetch_page (env.outcome p))

/-- Lines 93-99 of the loop body: page 1 is fetched directly,
pages ≥ 2 go through `fetch_page_with_url_state`. -/
def pageFetchStep (env : ScrapeEnv) (b : BaseUrl) (p : Nat) :
    Except Unit (Option (List (String × JSON))) :=
  if p = 1 then .ok (fetch_page (env.outcome p))
  else fetch_page_with_url_state env b p

/-- The `fetch_all_pages` loop with the raise path of
`fetch_page_with_url_state` modelled: a raise happens before the fetch of
the affected page and propagates uncaught, so the run returns no list.
`fetchPagesAux` is this function with the raise path collapsed;
`fetchPagesAuxE_eq_ok` relates the two on well-formed base URLs. -/
def fetchPagesAuxE (env : ScrapeEnv) (b : BaseUrl) :
    Nat → Nat → Except Unit (List PageRec × List Nat)
  | _, 0 => .ok ([], [])
  | p, fuel + 1 => do
    let result ← pageFetchStep env b p
    match result with
    | none => .ok ([], [p])
    | some d =>
      if d.isEmpty then .ok ([], [p])
      else
        let entry : PageRec := ⟨p, b.url, d⟩
        let html := htmlOf d
        if !html.truthy then .ok ([entry], [p])
        else if !env.hasEnabledNextLink html then .ok ([entry], [p])
        else do
          let rest ← fetchPagesAuxE env b (p + 1) fuel
          .ok (entry :: rest.1, p :: rest.2)

/-- `NimbleScraper.fetch_all_pages` with the raise path of the URL
rewriting modelled. -/
def fetch_all_pagesE (env : ScrapeEnv) (b : BaseUrl) (max_pages : Nat) :
    Except Unit (List PageRec × List Nat) :=
  fetchPagesAuxE env b 1 max_pages

/-- Environment of the C1 counterexample and witness: every request
succeeds with a truthy HTML field and an enabled next link. -/
def c1Env : ScrapeEnv where
  outcome := fun _ => .ok [("html_content", .str "x")]
  hasEnabledNextLink := fun _ => true

/-- A base URL whose `searchQueryState` query parameter is present but
not valid JSON: `json.loads` raises on it. -/
def c1BadUrl : BaseUrl :=
  ⟨"https://www.zillow.com/rentals/?searchQueryState=not-json", .malformed⟩

/-- A base URL without a `searchQueryState` query parameter. -/
def c1GoodUrl : BaseUrl :=
  ⟨"https://www.zillow.com/new-york-ny/rentals/", .absent⟩

/-- Input on which C2 as stated fails: `pageProps` is the non-dict `0`,
so the primary chain raises `AttributeError` and `extract_search_results`
returns `None`, although the third alternative path holds a non-empty
dict with key `listResults`, which the claim says should be returned. -/
def c2Input : JSON :=
  .obj [("props", .obj
    [("pageProps", .num 0),
     ("initialReduxState", .obj
       [("searchPageState", .obj
         [("cat1", .obj
           [("searchResults", .obj [("listResults", .arr [.num 1])])])])])])]

/-- Concrete input of the C3 witness. -/
def c3WitnessInput : List (String × JSON) :=
  [("zpid", .num 7),
   ("addressStreet", .str "1 Main St"),
   ("addressCity", .str "Springfield"),
   ("addressState", .str "IL"),
   ("addressZipcode", .str "62704"),
   ("price", .str "$1,200/mo"),
   ("beds", .num 2),
   ("baths", .num 1),
   ("latLong", .obj [("latitude", .num 39), ("longitude", .num (-89))])]

/-- Concrete input of the C8 witness: 41 total results over 20 per page
give 3 pages. -/
def c8Input : JSON :=
  .obj [("props", .obj [("pageProps", .obj [("searchPageState", .obj
    [("cat1", .obj [("searchResults", .obj
      [("totalResultCount", .num 41)])])])])])]

/-- Environment of the C5 witness: page 1 succeeds with a next link, page
2 answers with an HTTP error. -/
def c5Env : ScrapeEnv where
  outcome := fun p => if p = 1 then .ok [("html", .str "x")] else .httpError
  hasEnabledNextLink := fun _ => true

/-- Environment of the C7 witness: every page succeeds with a truthy HTML
field and an enabled next link. -/
def c7Env : ScrapeEnv where
  outcome := fun _ => .ok [("html_content", .str "x")]
  hasEnabledNextLink := fun _ => true

lemma specPathValue_empty_obj (p : List String) :
    specPathValue (.obj []) p = .obj [] := by
  induction p with
  | nil => rfl
  | cons k ks ih =>
    simpa [specPathValue, specGet, dictGetD, dictLookup, List.foldl] using ih

lemma specPathValue_of_followPath_ok {j d : JSON} {p : List String}
    (h : followPath j p = .ok d) : specPathValue j p = d := by
  induction p generalizing j with
  | nil =>
    simp [followPath] at h
    simpa [specPathValue] using h
  | cons k ks ih =>
    cases j with
    | obj kvs =>
      simp [followPath, JSON.objGet, Except.bind] at h
      simpa [specPathValue, specGet, List.foldl] using ih h
    | null => exact Except.noConfusion h
    | bool b => exact Except.noConfusion h
    | num n => exact Except.noConfusion h
    | str s => exact Except.noConfusion h
    | arr xs => exact Except.noConfusion h

lemma specPathValue_of_followPath_error {j : JSON} {p : List String}
    (h : followPath j p = .error ()) : specPathValue j p = .obj [] := by
  induction p generalizing j with
  | nil => simp [followPath] at h
  | cons k ks ih =>
    cases j with
    | obj kvs =>
      simp only [followPath, JSON.objGet, Except.bind] at h
      simpa [specPathValue, specGet, List.foldl] using ih h
    | null => exact specPathValue_empty_obj ks
    | bool b => exact specPathValue_empty_obj ks
    | num n => exact specPathValue_empty_obj ks
    | str s => exact specPathValue_empty_obj ks
    | arr xs => exact specPathValue_empty_obj ks

lemma tryAlternativePathsFn_eq_specFirstAlt (j : JSON) (ps : List (List String)) :
    tryAlternativePathsFn j ps = specFirstAlt j ps := by
  induction ps with
  | nil => rfl
  | cons p ps ih =>
    cases hfp : followPath j p with
    | error e =>
      cases e
      simp only [tryAlternativePathsFn, specFirstAlt, hfp,
        specPathValue_of_followPath_error hfp]
      simp [altAccept, JSON.truthy, ih]
    | ok d =>
      simp only [tryAlternativePathsFn, specFirstAlt, hfp,
        specPathValue_of_followPath_ok hfp]
      simp [ih]


lemma except_bind_ok {α β : Type} (a : α) (f : α → Except Unit β) :
    (Except.ok a >>= f) = f a := rfl

lemma except_bind_error {α β : Type} (f : α → Except Unit β) :
    ((Except.error () : Except Unit α) >>= f) = Except.error () := rfl

lemma exists_obj_of_isObj {j : JSON} (h : j.isObj = true) :
    ∃ kvs, j = .obj kvs := by
  cases j <;> simp [JSON.isObj] at h
  case obj kvs => exact ⟨kvs, rfl⟩

lemma exists_str_of_isStr {j : JSON} (h : j.isStr = true) :
    ∃ s, j = .str s := by
  cases j <;> simp [JSON.isStr] at h
  case str s => exact ⟨s, rfl⟩

lemma extract_search_results_primary_ok {j d : JSON}
    (h : followPath j primaryPath = .ok d) :
    extract_search_results j = extract_search_results_spec j := by
  have hc : extract_search_results j =
      if d.truthy then some d else tryAlternativePathsFn j alternativePaths := by
    rw [extract_search_results, h]
  have hs : extract_search_results_spec j =
      if d.truthy then some d else specFirstAlt j alternativePaths := by
    simp only [extract_search_results_spec]
    rw [specPathValue_of_followPath_ok h]
  rw [hc, hs, tryAlternativePathsFn_eq_specFirstAlt]

/-- C2: `extract_search_results` matches the claimed primary-then-ordered-
fallback behaviour on every input whose primary-path traversal does not
raise; when the traversal hits a non-dict intermediate value it returns
`None` at once, without trying the alternative paths. -/
theorem extract_search_results_fallback_order :
    (∀ j d : JSON, followPath j primaryPath = .ok d →
      extract_search_results j = extract_search_results_spec j) ∧
    (∀ j : JSON, followPath j primaryPath = .error () →
      extract_search_results j = none) := by
  constructor
  · intro j d h
    exact extract_search_results_primary_ok h
  · intro j h
    rw [extract_search_results, h]

/-- C2 counterexample: the code returns `None` on `c2Input` while the
claimed lookup discipline returns the dict found at the third alternative
path. -/
theorem extract_search_results_fallback_order_counterexample :
    extract_search_results c2Input = none ∧
    extract_search_results_spec c2Input =
      some (.obj [("listResults", .arr [.num 1])]) ∧
    extract_search_results c2Input ≠ extract_search_results_spec c2Input := by
  refine ⟨rfl, rfl, ?_⟩
  intro h
  rw [show extract_search_results c2Input = none from rfl] at h
  exact Option.noConfusion (h.trans rfl)

/-- C2 witness: a well-formed input on which the theorem applies and both
sides agree. -/
theorem extract_search_results_fallback_order_witness :
    followPath (.obj [("props", .obj [("pageProps", .obj
      [("searchPageState", .obj [("cat1", .obj
        [("searchResults", .obj [("listResults", .arr [.num 1, .num 2])])])])])])])
      primaryPath = .ok (.obj [("listResults", .arr [.num 1, .num 2])]) ∧
    extract_search_results (.obj [("props", .obj [("pageProps", .obj
      [("searchPageState", .obj [("cat1", .obj
        [("searchResults", .obj [("listResults", .arr [.num 1, .num 2])])])])])])]) =
    extract_search_results_spec (.obj [("props", .obj [("pageProps", .obj
      [("searchPageState", .obj [("cat1", .obj
        [("searchResults", .obj [("listResults", .arr [.num 1, .num 2])])])])])])]) :=
  ⟨rfl, extract_search_results_fallback_order.1 _ _ rfl⟩

/-- C9 counterexample: on the non-dict input `5`, the `try` body of
`parse_property` raises `AttributeError`, and the `except` handler raises
`AttributeError` again while evaluating `prop_data.get('zpid', 'unknown')`
for its log line, so the exception propagates to the caller. -/
theorem parse_property_raises_on_nondict :
    parse_property (.num 5) = .error () := rfl

/-- C9: on every dict input `parse_property` returns normally (a record or
`None`); on every non-dict input the exception escapes, because the error
handler itself calls `.get` on the input. -/
theorem parse_property_no_exception_on_dicts :
    (∀ kvs : List (String × JSON), (parse_property (.obj kvs)).isOk = true) ∧
    (∀ j : JSON, j.isObj = false → parse_property j = .error ()) := by
  constructor
  · intro kvs
    rw [parse_property]
    cases h : extractFields (.obj kvs) with
    | ok r => cases r <;> rfl
    | error e => rfl
  · intro j h
    cases j with
    | obj kvs => simp [JSON.isObj] at h
    | null => rfl
    | bool b => rfl
    | num n => rfl
    | str s => rfl
    | arr xs => rfl

/-- C9 witness: the amended theorem applied to the concrete non-dict
input `"x"`. -/
theorem parse_property_no_exception_on_dicts_witness :
    (JSON.str "x").isObj = false ∧ parse_property (.str "x") = .error () :=
  ⟨rfl, parse_property_no_exception_on_dicts.2 (.str "x") rfl⟩

/-- C3 counterexample: this dict has a truthy `zpid`, but its `latLong`
value is the non-dict `5`, so `lat_long.get('latitude')` raises and the
handler returns `None`: no record with the claimed fields is produced. -/
theorem parse_property_field_mapping_counterexample :
    parse_property (.obj [("zpid", .num 1), ("latLong", .num 5)]) = .ok none ∧
    (dictGetD [("zpid", .num 1), ("latLong", .num 5)] "zpid" .null).truthy = true :=
  ⟨rfl, rfl⟩

/-- C3: on every property dict with a truthy `zpid` whose `hdpData`,
`hdpData.homeInfo`, `variableData` and `latLong` members are dicts when
present and whose `detailUrl` is a string when truthy, `parse_property`
returns a record whose address, city, state, zipcode, price, bedrooms,
bathrooms, latitude and longitude fields equal the input dict values of
`addressStreet`, `addressCity`, `addressState`, `addressZipcode`,
`price`, `beds`, `baths`, `latLong.latitude` and `latLong.longitude`,
missing address parts defaulting to the empty string. -/
theorem parse_property_field_mapping (kvs : List (String × JSON))
    (hz : (dictGetD kvs "zpid" .null).truthy = true)
    (hh : (dictGetD kvs "hdpData" (.obj [])).isObj = true)
    (hhi : (dGetD (dictGetD kvs "hdpData" (.obj [])) "homeInfo" (.obj [])).isObj = true)
    (hv : (dictGetD kvs "variableData" (.obj [])).isObj = true)
    (hl : (dictGetD kvs "latLong" (.obj [])).isObj = true)
    (hd : (dictGetD kvs "detailUrl" (.str "")).truthy = true →
      (dictGetD kvs "detailUrl" (.str "")).isStr = true) :
    ∃ r, parse_property (.obj kvs) = .ok (some r) ∧
      dictLookup r "address" = some (dictGetD kvs "addressStreet" (.str "")) ∧
      dictLookup r "city" = some (dictGetD kvs "addressCity" (.str "")) ∧
      dictLookup r "state" = some (dictGetD kvs "addressState" (.str "")) ∧
      dictLookup r "zipcode" = some (dictGetD kvs "addressZipcode" (.str "")) ∧
      dictLookup r "price" = some (dictGetD kvs "price" .null) ∧
      dictLookup r "bedrooms" = some (dictGetD kvs "beds" .null) ∧
      dictLookup r "bathrooms" = some (dictGetD kvs "baths" .null) ∧
      dictLookup r "latitude" =
        some (dGetD (dictGetD kvs "latLong" (.obj [])) "latitude" .null) ∧
      dictLookup r "longitude" =
        some (dGetD (dictGetD kvs "latLong" (.obj [])) "longitude" .null) := by
  obtain ⟨hdp, hhdp⟩ := exists_obj_of_isObj hh
  rw [hhdp] at hhi
  obtain ⟨hi, hhi2⟩ := exists_obj_of_isObj hhi
  obtain ⟨vd, hvd⟩ := exists_obj_of_isObj hv
  obtain ⟨ll, hll⟩ := exists_obj_of_isObj hl
  have hhi3 : dictGetD hdp "homeInfo" (.obj []) = .obj hi := by
    simpa [dGetD] using hhi2
  have hmain : ∃ F : PropInfo, extractFields (.obj kvs) = .ok (some F) ∧
      F.address = dictGetD kvs "addressStreet" (.str "") ∧
      F.city = dictGetD kvs "addressCity" (.str "") ∧
      F.state = dictGetD kvs "addressState" (.str "") ∧
      F.zipcode = dictGetD kvs "addressZipcode" (.str "") ∧
      F.price = dictGetD kvs "price" .null ∧
      F.bedrooms = dictGetD kvs "beds" .null ∧
      F.bathrooms = dictGetD kvs "baths" .null ∧
      F.latitude = dictGetD ll "latitude" .null ∧
      F.longitude = dictGetD ll "longitude" .null := by
    cases hdu : (dictGetD kvs "detailUrl" (.str "")).truthy with
    | false =>
      simp [extractFields, JSON.objGet, except_bind_ok, hz, hhdp, hhi3, hvd,
        hll, fixDetailUrl, hdu]
    | true =>
      obtain ⟨s, hs⟩ := exists_str_of_isStr (hd hdu)
      rw [hs] at hdu
      simp [extractFields, JSON.objGet, except_bind_ok, hz, hhdp, hhi3, hvd,
        hll, fixDetailUrl, hs, hdu]
  obtain ⟨F, hF, hA, hC, hS, hZ, hP, hBe, hBa, hLa, hLo⟩ := hmain
  refine ⟨buildRecord F, ?_, ?_, ?_, ?_, ?_, ?_, ?_, ?_, ?_, ?_⟩
  · rw [parse_property, hF]
  · rw [show dictLookup (buildRecord F) "address" = some F.address from rfl, hA]
  · rw [show dictLookup (buildRecord F) "city" = some F.city from rfl, hC]
  · rw [show dictLookup (buildRecord F) "state" = some F.state from rfl, hS]
  · rw [show dictLookup (buildRecord F) "zipcode" = some F.zipcode from rfl, hZ]
  · rw [show dictLookup (buildRecord F) "price" = some F.price from rfl, hP]
  · rw [show dictLookup (buildRecord F) "bedrooms" = some F.bedrooms from rfl, hBe]
  · rw [show dictLookup (buildRecord F) "bathrooms" = some F.bathrooms from rfl, hBa]
  · rw [show dictLookup (buildRecord F) "latitude" = some F.latitude from rfl, hLa,
      hll]
    rfl
  · rw [show dictLookup (buildRecord F) "longitude" = some F.longitude from rfl, hLo,
      hll]
    rfl

/-- C3 witness: the field-mapping theorem applied to a concrete listing. -/
theorem parse_property_field_mapping_witness :
    (dictGetD c3WitnessInput "zpid" .null).truthy = true ∧
    (dictGetD c3WitnessInput "hdpData" (.obj [])).isObj = true ∧
    (dGetD (dictGetD c3WitnessInput "hdpData" (.obj [])) "homeInfo" (.obj [])).isObj = true ∧
    (dictGetD c3WitnessInput "variableData" (.obj [])).isObj = true ∧
    (dictGetD c3WitnessInput "latLong" (.obj [])).isObj = true ∧
    (dictGetD c3WitnessInput "detailUrl" (.str "")).isStr = true ∧
    (∃ r, parse_property (.obj c3WitnessInput) = .ok (some r) ∧
      dictLookup r "address" = some (dictGetD c3WitnessInput "addressStreet" (.str "")) ∧
      dictLookup r "city" = some (dictGetD c3WitnessInput "addressCity" (.str "")) ∧
      dictLookup r "state" = some (dictGetD c3WitnessInput "addressState" (.str "")) ∧
      dictLookup r "zipcode" = some (dictGetD c3WitnessInput "addressZipcode" (.str "")) ∧
      dictLookup r "price" = some (dictGetD c3WitnessInput "price" .null) ∧
      dictLookup r "bedrooms" = some (dictGetD c3WitnessInput "beds" .null) ∧
      dictLookup r "bathrooms" = some (dictGetD c3WitnessInput "baths" .null) ∧
      dictLookup r "latitude" =
        some (dGetD (dictGetD c3WitnessInput "latLong" (.obj [])) "latitude" .null) ∧
      dictLookup r "longitude" =
        some (dGetD (dictGetD c3WitnessInput "latLong" (.obj [])) "longitude" .null)) :=
  ⟨rfl, rfl, rfl, rfl, rfl, rfl,
   parse_property_field_mapping c3WitnessInput rfl rfl rfl rfl rfl (fun _ => rfl)⟩

lemma keys_buildRecord (F : PropInfo) :
    (buildRecord F).map Prod.fst = knownKeys := rfl

lemma parse_property_of_extract_some {j : JSON} {f : PropInfo}
    (he : extractFields j = .ok (some f)) :
    parse_property j = .ok (some (buildRecord f)) := by
  rw [parse_property, he]

lemma parse_property_of_extract_none {j : JSON}
    (he : extractFields j = .ok none) : parse_property j = .ok none := by
  rw [parse_property, he]

lemma parse_property_of_extract_error_obj {kvs : List (String × JSON)}
    (he : extractFields (.obj kvs) = .error ()) :
    parse_property (.obj kvs) = .ok none := by
  rw [parse_property, he]
  rfl

lemma parse_property_ok_some {j : JSON} {r : List (String × JSON)}
    (h : parse_property j = .ok (some r)) :
    ∃ f, extractFields j = .ok (some f) ∧ r = buildRecord f := by
  cases he : extractFields j with
  | ok o =>
    cases o with
    | some f =>
      rw [parse_property_of_extract_some he] at h
      exact ⟨f, rfl, (Option.some.inj (Except.ok.inj h)).symm⟩
    | none =>
      rw [parse_property_of_extract_none he] at h
      exact Option.noConfusion (Except.ok.inj h)
  | error e =>
    cases e
    cases j with
    | obj kvs =>
      rw [parse_property_of_extract_error_obj he] at h
      exact Option.noConfusion (Except.ok.inj h)
    | null => exact Except.noConfusion h
    | bool b => exact Except.noConfusion h
    | num n => exact Except.noConfusion h
    | str s => exact Except.noConfusion h
    | arr xs => exact Except.noConfusion h

lemma keys_of_parse_property_some {j : JSON} {r : List (String × JSON)}
    (h : parse_property j = .ok (some r)) : r.map Prod.fst = knownKeys := by
  obtain ⟨f, _, rfl⟩ := parse_property_ok_some h
  exact keys_buildRecord f

lemma keys_of_parsePropsLoop {xs : List JSON} {res : List (List (String × JSON))}
    (h : parsePropsLoop xs = .ok res) :
    ∀ r ∈ res, r.map Prod.fst = knownKeys := by
  induction xs generalizing res with
  | nil =>
    obtain rfl := Except.ok.inj h
    intro r hr
    cases hr
  | cons x xs ih =>
    rw [parsePropsLoop] at h
    cases hp : parse_property x with
    | error e => simp only [hp, except_bind_error] at h; exact Except.noConfusion h
    | ok ro =>
      simp only [hp, except_bind_ok] at h
      cases hl : parsePropsLoop xs with
      | error e => simp only [hl, except_bind_error] at h; exact Except.noConfusion h
      | ok rest =>
        simp only [hl, except_bind_ok] at h
        cases ro with
        | some info =>
          obtain rfl := Except.ok.inj h
          intro r hr
          rcases List.mem_cons.mp hr with h1 | h2
          · subst h1; exact keys_of_parse_property_some hp
          · exact ih hl r h2
        | none =>
          obtain rfl := Except.ok.inj h
          exact ih hl

lemma keys_of_parse_all {jd? : Option JSON} {res : List (List (String × JSON))}
    (h : parse_all_properties jd? = .ok res) :
    ∀ r ∈ res, r.map Prod.fst = knownKeys := by
  have hnil : ∀ r ∈ ([] : List (List (String × JSON))), r.map Prod.fst = knownKeys := by
    intro r hr; cases hr
  cases jd? with
  | none =>
    obtain rfl := Except.ok.inj h
    exact hnil
  | some jd =>
    rw [parse_all_properties] at h
    split at h
    · obtain rfl := Except.ok.inj h; exact hnil
    · split at h
      · obtain rfl := Except.ok.inj h; exact hnil
      · next sr heq =>
        split at h
        · obtain rfl := Except.ok.inj h; exact hnil
        · cases hsel : selectListResults sr with
          | error e =>
            simp only [hsel, except_bind_error] at h
            exact Except.noConfusion h
          | ok lr =>
            simp only [hsel, except_bind_ok] at h
            cases hit : iterListResults lr with
            | error e =>
              simp only [hit, except_bind_error] at h
              exact Except.noConfusion h
            | ok items =>
              simp only [hit, except_bind_ok] at h
              exact keys_of_parsePropsLoop h

/-- C4: every record `parse_property` returns carries exactly the fixed
set of 25 known keys, in source order, whatever keys the input dict has;
hence every element of a `parse_all_properties` result carries it too. -/
theorem parse_property_known_key_set :
    (∀ (j : JSON) (r : List (String × JSON)), parse_property j = .ok (some r) →
      r.map Prod.fst = knownKeys) ∧
    (∀ (jd? : Option JSON) (res : List (List (String × JSON))),
      parse_all_properties jd? = .ok res →
      ∀ r ∈ res, r.map Prod.fst = knownKeys) :=
  ⟨fun _ _ h => keys_of_parse_property_some h,
   fun _ _ h => keys_of_parse_all h⟩

/-- C4 witness: the key-set theorem applied to a minimal concrete listing. -/
theorem parse_property_known_key_set_witness :
    ∃ r, parse_property (.obj [("zpid", .num 1)]) = .ok (some r) ∧
      r.map Prod.fst = knownKeys :=
  ⟨_, rfl, parse_property_known_key_set.1 (JSON.obj [("zpid", JSON.num 1)]) _ rfl⟩

lemma except_pure_eq {α : Type} (a : α) :
    (pure a : Except Unit α) = Except.ok a := rfl

lemma exists_arr_of_isArr {j : JSON} (h : j.isArr = true) :
    ∃ xs, j = .arr xs := by
  cases j <;> simp [JSON.isArr] at h
  case arr xs => exact ⟨xs, rfl⟩

lemma selectListResults_first_nonempty (kvs : List (String × JSON))
    (h1 : (dictGetD kvs "listResults" (.arr [])).isArr = true)
    (h2 : (dictGetD kvs "results" (.arr [])).isArr = true)
    (h3 : (dictGetD kvs "mapResults" (.arr [])).isArr = true) :
    selectListResults (.obj kvs) = .ok (firstNonemptyArr
      [dictGetD kvs "listResults" (.arr []),
       dictGetD kvs "results" (.arr []),
       dictGetD kvs "mapResults" (.arr [])]) := by
  obtain ⟨l1, e1⟩ := exists_arr_of_isArr h1
  obtain ⟨l2, e2⟩ := exists_arr_of_isArr h2
  obtain ⟨l3, e3⟩ := exists_arr_of_isArr h3
  rw [e1, e2, e3]
  cases l1 with
  | cons y ys =>
    simp [selectListResults, JSON.objGet, except_bind_ok, e1, firstNonemptyArr,
      JSON.truthy, except_pure_eq]
  | nil =>
    cases l2 with
    | cons y ys =>
      simp [selectListResults, JSON.objGet, except_bind_ok, e1, e2,
        firstNonemptyArr, JSON.truthy, except_pure_eq]
    | nil =>
      cases l3 <;>
        simp [selectListResults, JSON.objGet, except_bind_ok, e1, e2, e3,
          firstNonemptyArr, JSON.truthy, except_pure_eq]

lemma parse_all_properties_via_select {jd sr lr : JSON}
    (hjt : jd.truthy = true) (hes : extract_search_results jd = some sr)
    (hst : sr.truthy = true) (hsel : selectListResults sr = .ok lr) :
    parse_all_properties (some jd) = (iterListResults lr >>= parsePropsLoop) := by
  simp [parse_all_properties, hjt, hes, hst, hsel, except_bind_ok]

/-- C6: `parse_all_properties` selects its listing array with the fallback
order `listResults`, then `results`, then `mapResults`, taking the first
non-empty list and the empty list when all are empty or absent
(`selectListResults` is lines 254-261 of parser.py, applied by
`parse_all_properties` to the extracted search-results dict). -/
theorem parse_all_properties_listing_fallback :
    (∀ kvs : List (String × JSON),
      (dictGetD kvs "listResults" (.arr [])).isArr = true →
      (dictGetD kvs "results" (.arr [])).isArr = true →
      (dictGetD kvs "mapResults" (.arr [])).isArr = true →
      selectListResults (.obj kvs) = .ok (firstNonemptyArr
        [dictGetD kvs "listResults" (.arr []),
         dictGetD kvs "results" (.arr []),
         dictGetD kvs "mapResults" (.arr [])])) ∧
    (∀ jd sr lr : JSON, jd.truthy = true → extract_search_results jd = some sr →
      sr.truthy = true → selectListResults sr = .ok lr →
      parse_all_properties (some jd) = (iterListResults lr >>= parsePropsLoop)) :=
  ⟨fun kvs h1 h2 h3 => selectListResults_first_nonempty kvs h1 h2 h3,
   fun _ _ _ hjt hes hst hsel => parse_all_properties_via_select hjt hes hst hsel⟩

/-- C6 witness: an empty `listResults` falls back to the non-empty
`results` list. -/
theorem parse_all_properties_listing_fallback_witness :
    (dictGetD [("listResults", JSON.arr []), ("results", JSON.arr [JSON.num 3])]
      "listResults" (.arr [])).isArr = true ∧
    (dictGetD [("listResults", JSON.arr []), ("results", JSON.arr [JSON.num 3])]
      "results" (.arr [])).isArr = true ∧
    (dictGetD [("listResults", JSON.arr []), ("results", JSON.arr [JSON.num 3])]
      "mapResults" (.arr [])).isArr = true ∧
    selectListResults (.obj [("listResults", JSON.arr []),
      ("results", JSON.arr [JSON.num 3])]) = .ok (firstNonemptyArr
        [dictGetD [("listResults", JSON.arr []), ("results", JSON.arr [JSON.num 3])]
          "listResults" (.arr []),
         dictGetD [("listResults", JSON.arr []), ("results", JSON.arr [JSON.num 3])]
          "results" (.arr []),
         dictGetD [("listResults", JSON.arr []), ("results", JSON.arr [JSON.num 3])]
          "mapResults" (.arr [])]) :=
  ⟨rfl, rfl, rfl,
   parse_all_properties_listing_fallback.1
     [("listResults", JSON.arr []), ("results", JSON.arr [JSON.num 3])] rfl rfl rfl⟩

lemma fdiv_ceil_bounds (n : Int) :
    20 * (Int.fdiv (n + 20 - 1) 20 - 1) < n ∧ n ≤ 20 * Int.fdiv (n + 20 - 1) 20 := by
  rw [Int.fdiv_eq_ediv _ (by norm_num)]
  omega

/-- C8: whenever `get_pagination_info` returns a non-empty dict, its
`total_pages` value is the floor of `(total_results + 20 - 1) / 20` — the
ceiling of `total_results / 20`, so `0` when `total_results = 0` and
`20*(total_pages - 1) < total_results ≤ 20*total_pages` — where
`total_results` is the first truthy value of the keys `totalResultCount`,
`totalResults`, `resultCount`, defaulting to `0` (`totalResultsOf`), and
`current_page` defaults to `1` when no pagination dict is found. -/
theorem get_pagination_info_total_pages :
    ∀ (jd? : Option JSON) (d : List (String × JSON)),
      get_pagination_info jd? = d → d ≠ [] →
      ∃ jd sr tr pg cp, ∃ n : Int,
        jd? = some jd ∧
        extract_search_results jd = some sr ∧
        totalResultsOf sr = .ok tr ∧
        toArithInt tr = .ok n ∧
        paginationOf sr = .ok pg ∧
        pg.objGet "currentPage" (.num 1) = .ok cp ∧
        d = [("current_page", cp),
             ("total_pages", .num (Int.fdiv (n + 20 - 1) 20)),
             ("total_results", tr)] ∧
        (n = 0 → Int.fdiv (n + 20 - 1) 20 = 0) ∧
        20 * (Int.fdiv (n + 20 - 1) 20 - 1) < n ∧
        n ≤ 20 * Int.fdiv (n + 20 - 1) 20 ∧
        (pg = .obj [] → cp = .num 1) := by
  intro jd? d h hne
  subst h
  cases jd? with
  | none => exact absurd rfl hne
  | some jd =>
    cases hjt : jd.truthy with
    | false =>
      exact absurd (by simp [get_pagination_info, hjt]) hne
    | true =>
      cases hes : extract_search_results jd with
      | none => exact absurd (by simp [get_pagination_info, hjt, hes]) hne
      | some sr =>
        cases hst : sr.truthy with
        | false =>
          exact absurd (by simp [get_pagination_info, hjt, hes, hst]) hne
        | true =>
          cases htr : totalResultsOf sr with
          | error e =>
            cases e
            exact absurd (by simp [get_pagination_info, hjt, hes, hst, htr,
              except_bind_error]) hne
          | ok tr =>
            cases hn : toArithInt tr with
            | error e =>
              cases e
              exact absurd (by simp [get_pagination_info, hjt, hes, hst, htr,
                hn, except_bind_ok, except_bind_error]) hne
            | ok n =>
              cases hpg : paginationOf sr with
              | error e =>
                cases e
                exact absurd (by simp [get_pagination_info, hjt, hes, hst, htr,
                  hn, hpg, except_bind_ok, except_bind_error]) hne
              | ok pg =>
                cases hcp : pg.objGet "currentPage" (.num 1) with
                | error e =>
                  cases e
                  exact absurd (by simp [get_pagination_info, hjt, hes, hst,
                    htr, hn, hpg, hcp, except_bind_ok, except_bind_error]) hne
                | ok cp =>
                  have hval : get_pagination_info (some jd) =
                      [("current_page", cp),
                       ("total_pages", .num (Int.fdiv (n + 20 - 1) 20)),
                       ("total_results", tr)] := by
                    simp [get_pagination_info, hjt, hes, hst, htr, hn, hpg,
                      hcp, except_bind_ok, except_pure_eq]
                  refine ⟨jd, sr, tr, pg, cp, n, rfl, hes, htr, hn, hpg, hcp,
                    hval, ?_, (fdiv_ceil_bounds n).1, (fdiv_ceil_bounds n).2, ?_⟩
                  · intro h0; subst h0; decide
                  · intro hpg0
                    rw [hpg0] at hcp
                    exact (Except.ok.inj hcp).symm

/-- C8 witness: the pagination theorem applied to `c8Input`. -/
theorem get_pagination_info_total_pages_witness :
    get_pagination_info (some c8Input) =
      [("current_page", JSON.num 1), ("total_pages", JSON.num 3),
       ("total_results", JSON.num 41)] ∧
    (∃ jd sr tr pg cp, ∃ n : Int,
      (some c8Input : Option JSON) = some jd ∧
      extract_search_results jd = some sr ∧
      totalResultsOf sr = .ok tr ∧
      toArithInt tr = .ok n ∧
      paginationOf sr = .ok pg ∧
      pg.objGet "currentPage" (.num 1) = .ok cp ∧
      [("current_page", JSON.num 1), ("total_pages", JSON.num 3),
       ("total_results", JSON.num 41)] =
        [("current_page", cp),
         ("total_pages", .num (Int.fdiv (n + 20 - 1) 20)),
         ("total_results", tr)] ∧
      (n = 0 → Int.fdiv (n + 20 - 1) 20 = 0) ∧
      20 * (Int.fdiv (n + 20 - 1) 20 - 1) < n ∧
      n ≤ 20 * Int.fdiv (n + 20 - 1) 20 ∧
      (pg = .obj [] → cp = .num 1)) :=
  ⟨rfl, get_pagination_info_total_pages (some c8Input)
    [("current_page", JSON.num 1), ("total_pages", JSON.num 3),
     ("total_results", JSON.num 41)] rfl
    (fun hx => List.noConfusion hx)⟩

lemma fetchPagesAux_struct (env : ScrapeEnv) (u : String) :
    ∀ (fuel p : Nat),
      (fetchPagesAux env u p fuel).2 =
        List.range' p (fetchPagesAux env u p fuel).2.length ∧
      (fetchPagesAux env u p fuel).2.length ≤ fuel ∧
      (fetchPagesAux env u p fuel).1.map PageRec.page_number =
        List.range' p (fetchPagesAux env u p fuel).1.length ∧
      (fetchPagesAux env u p fuel).1.length ≤ (fetchPagesAux env u p fuel).2.length ∧
      (∀ e ∈ (fetchPagesAux env u p fuel).1, e.url = u) := by
  intro fuel
  induction fuel with
  | zero =>
    intro p
    refine ⟨rfl, Nat.le_refl 0, rfl, Nat.le_refl 0, ?_⟩
    intro e he
    cases he
  | succ fuel ih =>
    intro p
    cases hf : fetch_page (env.outcome p) with
    | none =>
      have hstep : fetchPagesAux env u p (fuel + 1) = ([], [p]) := by
        simp [fetchPagesAux, hf]
      rw [hstep]
      exact ⟨by simp [List.range'_one], by simp, rfl, by simp, fun e he => absurd he (by simp)⟩
    | some d =>
      cases hde : d.isEmpty with
      | true =>
        have hstep : fetchPagesAux env u p (fuel + 1) = ([], [p]) := by
          simp [fetchPagesAux, hf, hde]
        rw [hstep]
        exact ⟨by simp [List.range'_one], by simp, rfl, by simp, fun e he => absurd he (by simp)⟩
      | false =>
        cases hht : (htmlOf d).truthy with
        | false =>
          have hstep : fetchPagesAux env u p (fuel + 1) =
              ([⟨p, u, d⟩], [p]) := by
            simp [fetchPagesAux, hf, hde, hht]
          rw [hstep]
          refine ⟨by simp [List.range'_one], by simp, by simp [List.range'_one], by simp, ?_⟩
          intro e he
          simp at he
          subst he
          rfl
        | true =>
          cases hnl : env.hasEnabledNextLink (htmlOf d) with
          | false =>
            have hstep : fetchPagesAux env u p (fuel + 1) =
                ([⟨p, u, d⟩], [p]) := by
              simp [fetchPagesAux, hf, hde, hht, hnl]
            rw [hstep]
            refine ⟨by simp [List.range'_one], by simp, by simp [List.range'_one], by simp, ?_⟩
            intro e he
            simp at he
            subst he
            rfl
          | true =>
            have hstep : fetchPagesAux env u p (fuel + 1) =
                (⟨p, u, d⟩ :: (fetchPagesAux env u (p + 1) fuel).1,
                 p :: (fetchPagesAux env u (p + 1) fuel).2) := by
              simp [fetchPagesAux, hf, hde, hht, hnl]
            rw [hstep]
            obtain ⟨h1, h2, h3, h4, h5⟩ := ih (p + 1)
            refine ⟨?_, ?_, ?_, ?_, ?_⟩
            · simpa [List.range'_succ] using h1
            · simp only [List.length_cons]
              omega
            · simpa [List.range'_succ] using h3
            · simp only [List.length_cons]
              omega
            · intro e he
              rcases List.mem_cons.mp he with h | h
              · subst h; rfl
              · exact h5 e h

lemma fetchPagesAux_mem_ge (env : ScrapeEnv) (u : String) :
    ∀ (fuel p q : Nat), q ∈ (fetchPagesAux env u p fuel).2 → p ≤ q := by
  intro fuel
  induction fuel with
  | zero =>
    intro p q hq
    cases hq
  | succ fuel ih =>
    intro p q hq
    cases hf : fetch_page (env.outcome p) with
    | none =>
      rw [show fetchPagesAux env u p (fuel + 1) = ([], [p]) by
        simp [fetchPagesAux, hf]] at hq
      simp at hq
      omega
    | some d =>
      cases hde : d.isEmpty with
      | true =>
        rw [show fetchPagesAux env u p (fuel + 1) = ([], [p]) by
          simp [fetchPagesAux, hf, hde]] at hq
        simp at hq
        omega
      | false =>
        cases hht : (htmlOf d).truthy with
        | false =>
          rw [show fetchPagesAux env u p (fuel + 1) = ([⟨p, u, d⟩], [p]) by
            simp [fetchPagesAux, hf, hde, hht]] at hq
          simp at hq
          omega
        | true =>
          cases hnl : env.hasEnabledNextLink (htmlOf d) with
          | false =>
            rw [show fetchPagesAux env u p (fuel + 1) = ([⟨p, u, d⟩], [p]) by
              simp [fetchPagesAux, hf, hde, hht, hnl]] at hq
            simp at hq
            omega
          | true =>
            rw [show fetchPagesAux env u p (fuel + 1) =
                (⟨p, u, d⟩ :: (fetchPagesAux env u (p + 1) fuel).1,
                 p :: (fetchPagesAux env u (p + 1) fuel).2) by
              simp [fetchPagesAux, hf, hde, hht, hnl]] at hq
            rcases List.mem_cons.mp hq with h | h
            · omega
            · have := ih (p + 1) q h
              omega

lemma fetchPagesAux_mem_succ (env : ScrapeEnv) (u : String) :
    ∀ (fuel p q : Nat), (q + 1) ∈ (fetchPagesAux env u p fuel).2 →
      q + 1 = p ∨ (p ≤ q ∧ ∃ d, fetch_page (env.outcome q) = some d ∧
        d.isEmpty = false ∧ (htmlOf d).truthy = true ∧
        env.hasEnabledNextLink (htmlOf d) = true) := by
  intro fuel
  induction fuel with
  | zero =>
    intro p q hq
    cases hq
  | succ fuel ih =>
    intro p q hq
    cases hf : fetch_page (env.outcome p) with
    | none =>
      rw [show fetchPagesAux env u p (fuel + 1) = ([], [p]) by
        simp [fetchPagesAux, hf]] at hq
      simp at hq
      exact Or.inl hq
    | some d =>
      cases hde : d.isEmpty with
      | true =>
        rw [show fetchPagesAux env u p (fuel + 1) = ([], [p]) by
          simp [fetchPagesAux, hf, hde]] at hq
        simp at hq
        exact Or.inl hq
      | false =>
        cases hht : (htmlOf d).truthy with
        | false =>
          rw [show fetchPagesAux env u p (fuel + 1) = ([⟨p, u, d⟩], [p]) by
            simp [fetchPagesAux, hf, hde, hht]] at hq
          simp at hq
          exact Or.inl hq
        | true =>
          cases hnl : env.hasEnabledNextLink (htmlOf d) with
          | false =>
            rw [show fetchPagesAux env u p (fuel + 1) = ([⟨p, u, d⟩], [p]) by
              simp [fetchPagesAux, hf, hde, hht, hnl]] at hq
            simp at hq
            exact Or.inl hq
          | true =>
            rw [show fetchPagesAux env u p (fuel + 1) =
                (⟨p, u, d⟩ :: (fetchPagesAux env u (p + 1) fuel).1,
                 p :: (fetchPagesAux env u (p + 1) fuel).2) by
              simp [fetchPagesAux, hf, hde, hht, hnl]] at hq
            rcases List.mem_cons.mp hq with h | h
            · exact Or.inl h
            · rcases ih (p + 1) q h with h1 | h2
              · have hqp : q = p := by omega
                subst hqp
                exact Or.inr ⟨Nat.le_refl _, d, hf, hde, hht, hnl⟩
              · exact Or.inr ⟨by omega, h2.2⟩

lemma fetchPagesAux_stop (env : ScrapeEnv) (u : String) :
    ∀ (fuel p q : Nat), q ∈ (fetchPagesAux env u p fuel).2 →
      fetch_page (env.outcome q) = none →
      ∀ q' ∈ (fetchPagesAux env u p fuel).2, q' ≤ q := by
  intro fuel
  induction fuel with
  | zero =>
    intro p q hq
    cases hq
  | succ fuel ih =>
    intro p q hq hqn q' hq'
    cases hf : fetch_page (env.outcome p) with
    | none =>
      rw [show fetchPagesAux env u p (fuel + 1) = ([], [p]) by
        simp [fetchPagesAux, hf]] at hq hq'
      simp at hq hq'
      omega
    | some d =>
      have hqp : q ≠ p := by
        intro hh
        rw [hh, hf] at hqn
        exact Option.noConfusion hqn
      cases hde : d.isEmpty with
      | true =>
        rw [show fetchPagesAux env u p (fuel + 1) = ([], [p]) by
          simp [fetchPagesAux, hf, hde]] at hq hq'
        simp at hq hq'
        omega
      | false =>
        cases hht : (htmlOf d).truthy with
        | false =>
          rw [show fetchPagesAux env u p (fuel + 1) = ([⟨p, u, d⟩], [p]) by
            simp [fetchPagesAux, hf, hde, hht]] at hq hq'
          simp at hq hq'
          omega
        | true =>
          cases hnl : env.hasEnabledNextLink (htmlOf d) with
          | false =>
            rw [show fetchPagesAux env u p (fuel + 1) = ([⟨p, u, d⟩], [p]) by
              simp [fetchPagesAux, hf, hde, hht, hnl]] at hq hq'
            simp at hq hq'
            omega
          | true =>
            rw [show fetchPagesAux env u p (fuel + 1) =
                (⟨p, u, d⟩ :: (fetchPagesAux env u (p + 1) fuel).1,
                 p :: (fetchPagesAux env u (p + 1) fuel).2) by
              simp [fetchPagesAux, hf, hde, hht, hnl]] at hq hq'
            rcases List.mem_cons.mp hq with h | h
            · exact absurd h hqp
            · rcases List.mem_cons.mp hq' with h' | h'
              · have := fetchPagesAux_mem_ge env u fuel (p + 1) q h
                omega
              · exact ih (p + 1) q h hqn q' h'

lemma pageFetchStep_ok (env : ScrapeEnv) (b : BaseUrl)
    (hq : b.queryState ≠ SearchQueryState.malformed) (p : Nat) :
    pageFetchStep env b p = .ok (fetch_page (env.outcome p)) := by
  by_cases hp : p = 1
  · simp [pageFetchStep, hp]
  · cases hb : b.queryState with
    | malformed => exact absurd hb hq
    | absent => simp [pageFetchStep, hp, fetch_page_with_url_state, hb]
    | valid st => simp [pageFetchStep, hp, fetch_page_with_url_state, hb]

lemma fetchPagesAuxE_eq_ok (env : ScrapeEnv) (b : BaseUrl)
    (hq : b.queryState ≠ SearchQueryState.malformed) :
    ∀ (fuel p : Nat),
      fetchPagesAuxE env b p fuel = .ok (fetchPagesAux env b.url p fuel) := by
  intro fuel
  induction fuel with
  | zero => intro p; rfl
  | succ fuel ih =>
    intro p
    have hstep := pageFetchStep_ok env b hq p
    cases hf : fetch_page (env.outcome p) with
    | none =>
      simp [fetchPagesAuxE, fetchPagesAux, hstep, except_bind_ok, hf]
    | some d =>
      cases hde : d.isEmpty with
      | true =>
        simp [fetchPagesAuxE, fetchPagesAux, hstep, except_bind_ok, hf, hde]
      | false =>
        cases hht : (htmlOf d).truthy with
        | false =>
          simp [fetchPagesAuxE, fetchPagesAux, hstep, except_bind_ok, hf,
            hde, hht]
        | true =>
          cases hnl : env.hasEnabledNextLink (htmlOf d) with
          | false =>
            simp [fetchPagesAuxE, fetchPagesAux, hstep, except_bind_ok, hf,
              hde, hht, hnl]
          | true =>
            simp [fetchPagesAuxE, fetchPagesAux, hstep, except_bind_ok, hf,
              hde, hht, hnl, ih (p + 1)]

/-- C1 (amended): the model of `fetch_all_pages` is a total function, so
every run terminates; for every environment and every base URL whose
`searchQueryState` query parameter is absent or parses to a JSON dict,
the run returns normally, the attempted pages are exactly the consecutive
numbers `1, 2, ...` in order — one `fetch_page` call per attempted page,
never two for the same page — and the returned list holds at most
`max_pages` records.  On a malformed `searchQueryState` parameter a run
that proceeds past page 1 raises inside the URL rewriting and returns no
list (see the counterexample). -/
theorem fetch_all_pages_sequential_bounded (env : ScrapeEnv) (b : BaseUrl)
    (m : Nat) (hq : b.queryState ≠ SearchQueryState.malformed) :
    fetch_all_pagesE env b m = .ok (fetch_all_pages env b.url m) ∧
    (fetch_all_pages env b.url m).2 =
      List.range' 1 (fetch_all_pages env b.url m).2.length ∧
    (fetch_all_pages env b.url m).2.Nodup ∧
    (fetch_all_pages env b.url m).2.length ≤ m ∧
    (fetch_all_pages env b.url m).1.length ≤ m := by
  obtain ⟨h1, h2, h3, h4, h5⟩ := fetchPagesAux_struct env b.url m 1
  simp only [fetch_all_pages, fetch_all_pagesE]
  refine ⟨fetchPagesAuxE_eq_ok env b hq m 1, h1, ?_, h2, by omega⟩
  rw [h1]
  exact List.nodup_range' _ _

/-- C1 counterexample: with every request succeeding with a truthy HTML
field and an enabled next link, a base URL whose `searchQueryState` query
parameter is present but not valid JSON makes the run raise at page 2's
URL rewriting (`json.loads`, scraper.py line 161): `fetch_all_pages`
propagates the exception and returns no list, although `max_pages = 2`
and the fetch of page 1 succeeded. -/
theorem fetch_all_pages_sequential_bounded_counterexample :
    fetch_all_pagesE c1Env c1BadUrl 2 = .error () ∧
    c1BadUrl.queryState = SearchQueryState.malformed ∧
    fetch_page (c1Env.outcome 1) = some [("html_content", .str "x")] ∧
    (htmlOf [("html_content", JSON.str "x")]).truthy = true ∧
    c1Env.hasEnabledNextLink (htmlOf [("html_content", JSON.str "x")]) = true :=
  ⟨rfl, rfl, rfl, rfl, rfl⟩

/-- C1 witness: the amended theorem applied to a base URL without a
`searchQueryState` parameter and an environment where every page
succeeds. -/
theorem fetch_all_pages_sequential_bounded_witness :
    c1GoodUrl.queryState ≠ SearchQueryState.malformed ∧
    (fetch_all_pagesE c1Env c1GoodUrl 3 =
        .ok (fetch_all_pages c1Env c1GoodUrl.url 3) ∧
      (fetch_all_pages c1Env c1GoodUrl.url 3).2 =
        List.range' 1 (fetch_all_pages c1Env c1GoodUrl.url 3).2.length ∧
      (fetch_all_pages c1Env c1GoodUrl.url 3).2.Nodup ∧
      (fetch_all_pages c1Env c1GoodUrl.url 3).2.length ≤ 3 ∧
      (fetch_all_pages c1Env c1GoodUrl.url 3).1.length ≤ 3) :=
  ⟨fun h => SearchQueryState.noConfusion h,
   fetch_all_pages_sequential_bounded c1Env c1GoodUrl 3
     (fun h => SearchQueryState.noConfusion h)⟩

/-- C10: the records returned by `fetch_all_pages` carry the page numbers
`1, 2, ..., length` in order — a gapless, duplicate-free prefix of the
attempted pages — and every record's `url` field is the `base_url`
argument. -/
theorem fetch_all_pages_result_pages_urls (env : ScrapeEnv) (u : String)
    (m : Nat) :
    (fetch_all_pages env u m).1.map PageRec.page_number =
      List.range' 1 (fetch_all_pages env u m).1.length ∧
    (fetch_all_pages env u m).1.map PageRec.url =
      List.replicate (fetch_all_pages env u m).1.length u := by
  obtain ⟨h1, h2, h3, h4, h5⟩ := fetchPagesAux_struct env u m 1
  simp only [fetch_all_pages]
  refine ⟨h3, ?_⟩
  rw [List.eq_replicate_iff]
  refine ⟨by simp, ?_⟩
  intro b hb
  obtain ⟨e, he, rfl⟩ := List.mem_map.mp hb
  exact h5 e he

/-- C5: `fetch_page` maps an HTTP error status or request exception to
`None` and an ok body to the decoded dict; and in `fetch_all_pages`, no
page is ever fetched after a page whose `fetch_page` returned `None` —
the loop stops there, in particular it never retries that page. -/
theorem fetch_page_failure_stops_loop :
    (∀ d, fetch_page (.ok d) = some d) ∧
    fetch_page .httpError = none ∧
    fetch_page .requestError = none ∧
    (∀ (env : ScrapeEnv) (u : String) (m q : Nat),
      q ∈ (fetch_all_pages env u m).2 → fetch_page (env.outcome q) = none →
      ∀ q' ∈ (fetch_all_pages env u m).2, q' ≤ q) :=
  ⟨fun _ => rfl, rfl, rfl,
   fun env u m q hq hn q' hq' => fetchPagesAux_stop env u m 1 q hq hn q' hq'⟩

/-- C5 witness: with `c5Env` the loop attempts pages 1 and 2 and stops at
the failed page 2. -/
theorem fetch_page_failure_stops_loop_witness :
    2 ∈ (fetch_all_pages c5Env "https://example.org" 5).2 ∧
    fetch_page (c5Env.outcome 2) = none ∧
    (∀ q' ∈ (fetch_all_pages c5Env "https://example.org" 5).2, q' ≤ 2) :=
  ⟨by decide, rfl,
   fetch_page_failure_stops_loop.2.2.2 c5Env "https://example.org" 5 2
     (by decide) rfl⟩

/-- C7: a fetch for page `n + 2` is issued only when the fetch for page
`n + 1` returned a dict with a truthy HTML field whose HTML passes the
enabled-next-link check, and `n + 2` is within `max_pages`. -/
theorem fetch_next_page_needs_enabled_next_link (env : ScrapeEnv)
    (u : String) (m n : Nat)
    (h : (n + 2) ∈ (fetch_all_pages env u m).2) :
    (∃ d, fetch_page (env.outcome (n + 1)) = some d ∧
      (htmlOf d).truthy = true ∧ env.hasEnabledNextLink (htmlOf d) = true) ∧
    n + 2 ≤ m := by
  rcases fetchPagesAux_mem_succ env u m 1 (n + 1) h with h1 | h2
  · omega
  · obtain ⟨_, d, hf, _, hht, hnl⟩ := h2
    refine ⟨⟨d, hf, hht, hnl⟩, ?_⟩
    obtain ⟨ht, hlen, _, _, _⟩ := fetchPagesAux_struct env u m 1
    have h2 : (n + 2) ∈ (fetchPagesAux env u 1 m).2 := h
    rw [ht] at h2
    have := List.mem_range'_1.mp h2
    omega

/-- C7 witness: with `c7Env` and `max_pages = 2` page 2 is fetched, so
page 1 must have succeeded with a truthy HTML field and an enabled next
link. -/
theorem fetch_next_page_needs_enabled_next_link_witness :
    (0 + 2) ∈ (fetch_all_pages c7Env "https://example.org" 2).2 ∧
    ((∃ d, fetch_page (c7Env.outcome (0 + 1)) = some d ∧
      (htmlOf d).truthy = true ∧ c7Env.hasEnabledNextLink (htmlOf d) = true) ∧
     0 + 2 ≤ 2) :=
  ⟨by decide,
   fetch_next_page_needs_enabled_next_link c7Env "https://example.org" 2 0
     (by decide)⟩
